import Mathlib

/-!
Shallow embedding of `domino._embed` (file `src/domino/_embed/__init__.py`).

The repository code is integration glue over external libraries (meerkat
dataframes, torch tensors) and over two repository modules that are not part
of the sources at hand (`domino.registry.Registry`,
`domino._embed.encoder.Encoder`); those are modelled from the spec, as noted
on each definition.  Values stored in columns are modelled by an arbitrary
type `V`; the external torch operations that `_embed` invokes on values are
collected in a record of abstract functions, so every theorem quantifies over
what the external library may do.  The external batched `map` driver is
modelled at the granularity of rows: it applies the composed callback to
every row of the input column and records the configuration arguments
(`mmap`, `mmap_path`, `batch_size`, ...) it was invoked with.
-/

namespace DominoModel

/-- Kinds of meerkat columns that `infer_modality` distinguishes:
`mk.ImageColumn`, `mk.ScalarColumn`, and every other column class. -/
inductive ColKind : Type
| image : ColKind
| scalar : ColKind
| other : ColKind
deriving DecidableEq, Repr

/-- A meerkat column: its class (as far as `infer_modality` can see) and its
rows. -/
structure Column (V : Type) : Type where
  kind : ColKind
  data : List V
deriving DecidableEq, Repr

/-- A meerkat `DataFrame`: named columns, in order. -/
structure DataFrame (V : Type) : Type where
  cols : List (String × Column V)
deriving DecidableEq, Repr

/-- `data[name]`: the first column called `name`, if any (Python raises
`KeyError` otherwise). -/
def DataFrame.getCol {V : Type} (df : DataFrame V) (name : String) :
    Option (Column V) :=
  (df.cols.find? (fun p => p.1 == name)).map (fun p => p.2)

/-- `data[name] = c`: replace the column called `name` in place, or append a
new one at the end. -/
def DataFrame.setCol {V : Type} (df : DataFrame V) (name : String)
    (c : Column V) : DataFrame V :=
  if df.cols.any (fun p => p.1 == name) then
    ⟨df.cols.map (fun p => if p.1 == name then (name, c) else p)⟩
  else ⟨df.cols ++ [(name, c)]⟩

/-- The torch operations `_embed` applies to values, as abstract functions:
`torch.is_tensor`, `x.to(device)`, `x.cpu()`, `x.detach()`, `x.numpy()`. -/
structure TorchOps (V : Type) : Type where
  is_tensor : V → Bool
  to_device : String → V → V
  cpu : V → V
  detach : V → V
  numpy : V → V

/-- `_prepare_input` from `_embed` (lines 147-152): move tensors to the
compute device.  (The `isinstance(x, mk.Column)` unwrapping is the identity
at this model's granularity, where rows are bare values, never columns.) -/
def prepare_input {V : Type} (T : TorchOps V) (device : String) (x : V) : V :=
  if T.is_tensor x then T.to_device device x else x

/-- Modelled from the spec: an `Encoder` holds, for one modality, the
"preprocess/collate/encode callables" (glossary); `preprocess` and `collate`
may be absent, matching the `is not None` tests in `_embed`. -/
structure EncoderUnit (V : Type) : Type where
  encode : V → V
  preprocess : Option (V → V)
  collate : Option (V → V)

/-- Modelled from the spec: `Encoder` is "a named bundle of per-modality
preprocess/collate/encode callables"; `strRep` is its Python string
representation (used by the f-string at line 101), and `units` maps each
supported modality to its callables.  `modality not in encoder` (line 105)
is membership among the keys of `units`; `encoder[modality]` (line 108) is
lookup. -/
structure Encoder (V : Type) : Type where
  strRep : String
  units : List (String × EncoderUnit V)

/-- `encoder[modality]` (line 108): the callables for one modality. -/
def Encoder.getModality {V : Type} (e : Encoder V) (m : String) :
    Option (EncoderUnit V) :=
  (e.units.find? (fun p => p.1 == m)).map (fun p => p.2)

/-- The `encoder` argument of `embed`: a registry name or a custom
`Encoder` object (`Union[str, Encoder]`, line 38). -/
inductive EncoderArg (V : Type) : Type
| name : String → EncoderArg V
| custom : Encoder V → EncoderArg V

/-- `f"{encoder}"`: the Python string conversion of the `encoder` argument as
passed — the string itself, or the custom object's string representation. -/
def EncoderArg.str {V : Type} : EncoderArg V → String
| .name s => s
| .custom e => e.strRep

/-- Modelled from the spec: `encoders.get(encoder, ...)` "looks up an encoder
implementation by name from a registry"; a custom `Encoder` object is used as
given.  `reg` is the registry's name-to-bundle table; a miss is an error. -/
def registryGet {V : Type} (reg : String → Option (Encoder V)) :
    EncoderArg V → Option (Encoder V)
| .name s => reg s
| .custom e => some e

/-- The exceptions the modelled code can raise:  the two `ValueError`s of
`infer_modality` (line 32) and `embed` (line 106), the `KeyError` of
`data[input_col]` on a missing column, and a failed registry lookup. -/
inductive EmbedError : Type
| cannotInferModality : ColKind → EmbedError
| unsupportedModality : EmbedError
| keyErrorColumn : EmbedError
| keyErrorRegistry : EmbedError
deriving DecidableEq, Repr

/-- `infer_modality` (lines 25-32): image columns embed as `"image"`, scalar
columns as `"text"`, anything else raises `ValueError`. -/
def infer_modality {V : Type} (col : Column V) : Except EmbedError String :=
  match col.kind with
  | .image => .ok "image"
  | .scalar => .ok "text"
  | .other => .error (.cannotInferModality .other)

/-- The configuration arguments `_embed` passes to the external
`embed_input.map(...)` call (lines 155-166), recorded so that theorems can
speak about how the external driver was invoked. -/
structure MapCall : Type where
  pbar : Bool
  is_batched_fn : Bool
  batch_size : Nat
  num_workers : Nat
  mmap : Bool
  mmap_path : Option String
  flush_size : Nat
deriving DecidableEq, Repr

/-- `os.path.join(dir, file)` for a directory path with no trailing
separator. -/
def joinPath (dir file : String) : String := dir ++ "/" ++ file

/-- `device = "cuda" if torch.cuda.is_available() else "cpu"` when `device
is None` (lines 136-137). -/
def resolve_device (cuda_available : Bool) : Option String → String
| none => if cuda_available then "cuda" else "cpu"
| some d => d

/-- The configuration record `_embed` passes to the external map call
(lines 157-165): progress bar, batched callback, batch size, worker count,
memory-mapping iff `mmap_dir is not None` with path
`os.path.join(mmap_dir, "emb_mmap.npy")`, flush size 128. -/
def mkMapCall (mmap_dir : Option String) (num_workers batch_size : Nat) :
    MapCall :=
  { pbar := true
    is_batched_fn := true
    batch_size := batch_size
    num_workers := num_workers
    mmap := mmap_dir.isSome
    mmap_path :=
      match mmap_dir with
      | none => none
      | some d => some (joinPath d "emb_mmap.npy")
    flush_size := 128 }

/-- `.cpu().detach().numpy()` (line 156): bring the encoded value back to
host memory, detached from autograd, as a numpy value. -/
def detach_to_host {V : Type} (T : TorchOps V) (x : V) : V :=
  T.numpy (T.detach (T.cpu x))

/-- `embed_input` (lines 139-142): `data[input_col].defer(preprocess)` when
`preprocess is not None`, applying `preprocess` to each row, otherwise the
input rows unchanged. -/
def defer_rows {V : Type} (preprocess : Option (V → V)) (xs : List V) :
    List V :=
  match preprocess with
  | some p => xs.map p
  | none => xs

/-- The dataloader applies `embed_input.collate_fn = collate` to the rows of
each batch when `collate is not None` (lines 144-145), otherwise the default
collation leaves rows unchanged. -/
def collate_row {V : Type} (collate : Option (V → V)) (x : V) : V :=
  match collate with
  | some c => c x
  | none => x

/-- The lambda passed to `map` (line 156), per row:
`encode(_prepare_input(x)).cpu().detach().numpy()`. -/
def map_row {V : Type} (T : TorchOps V) (dev : String) (encode : V → V)
    (x : V) : V :=
  detach_to_host T (encode (prepare_input T dev x))

/-- The rows of the output column produced by the external map driver
(lines 139-166): defer `preprocess` over the input column, then per row the
dataloader's collation followed by the mapped lambda. -/
def map_rows {V : Type} (T : TorchOps V) (dev : String) (encode : V → V)
    (preprocess collate : Option (V → V)) (xs : List V) : List V :=
  (defer_rows preprocess xs).map (fun x =>
    map_row T dev encode (collate_row collate x))

/-- `_embed` (lines 124-167).  Returns the final state of `data` (which is
also the return value on success) together with the recorded external map
call, or the propagated exception. -/
def embedInner {V : Type} (T : TorchOps V) (cuda_available : Bool)
    (data : DataFrame V) (input_col out_col : String) (encode : V → V)
    (preprocess collate : Option (V → V)) (device : Option String)
    (mmap_dir : Option String) (num_workers batch_size : Nat) :
    DataFrame V × Except EmbedError MapCall :=
  let dev := resolve_device cuda_available device
  match data.getCol input_col with
  | none => (data, .error .keyErrorColumn)
  | some col =>
    (data.setCol out_col
      ⟨.other, map_rows T dev encode preprocess collate col.data⟩,
     .ok (mkMapCall mmap_dir num_workers batch_size))

/-- The modality used by `embed` (lines 96-98): the argument when given,
otherwise inferred from `data[input_col]`. -/
def effectiveModality {V : Type} (data : DataFrame V) (input_col : String)
    (modality : Option String) : Except EmbedError String :=
  match modality with
  | none =>
    match data.getCol input_col with
    | none => .error .keyErrorColumn
    | some col => infer_modality col
  | some m => .ok m

/-- The output column name `embed` uses (lines 100-101): the argument when
given, otherwise the default built from the `encoder` argument as passed. -/
def effectiveOutCol {V : Type} (encoder : EncoderArg V) (input_col : String)
    (out_col : Option String) : String :=
  match out_col with
  | none => EncoderArg.str encoder ++ "(" ++ input_col ++ ")"
  | some c => c

/-- `embed` (lines 35-121): modality inference, default output column naming,
registry lookup, modality-support check, then `_embed`.  Returns the final
state of `data` (unchanged when an exception is raised) together with the
recorded external map call or the exception. -/
def embed {V : Type} (T : TorchOps V)
    (reg : String → Option (Encoder V)) (cuda_available : Bool)
    (data : DataFrame V) (input_col : String) (encoder : EncoderArg V)
    (modality : Option String) (out_col : Option String)
    (device : Option String) (mmap_dir : Option String)
    (num_workers batch_size : Nat) :
    DataFrame V × Except EmbedError MapCall :=
  match effectiveModality data input_col modality with
  | .error e => (data, .error e)
  | .ok m =>
    let oc := effectiveOutCol encoder input_col out_col
    match registryGet reg encoder with
    | none => (data, .error .keyErrorRegistry)
    | some enc =>
      match enc.getModality m with
      | none => (data, .error .unsupportedModality)
      | some u =>
        embedInner T cuda_available data input_col oc u.encode u.preprocess
          u.collate device mmap_dir num_workers batch_size

/-- The preprocess stage as applied to one row: what `defer(preprocess)`
does to each element when `preprocess is not None` (lines 139-142),
otherwise the row unchanged. -/
def preprocess_row {V : Type} (preprocess : Option (V → V)) (x : V) : V :=
  match preprocess with
  | some p => p x
  | none => x

/-- Follows the spec's words, for comparison with the composition the code
builds: a "callback composition (preprocess → collate → encode →
move-to-device → detach-to-host)", with move-to-device the device placement
`x.to(device)` of `_prepare_input` and detach-to-host the
`.cpu().detach().numpy()` chain. -/
def spec_pipeline {V : Type} (T : TorchOps V) (device : String)
    (u : EncoderUnit V) (x : V) : V :=
  detach_to_host T (prepare_input T device (u.encode (collate_row u.collate
    (preprocess_row u.preprocess x))))

/-! ### Concrete instances used to witness the theorems

Values are traces (lists of stage labels), so that the order in which the
external operations are applied is observable. -/

/-- Trace-valued torch operations: each records its application. -/
def exT : TorchOps (List String) :=
  { is_tensor := fun _ => true
    to_device := fun d x => x ++ ["to(" ++ d ++ ")"]
    cpu := fun x => x ++ ["cpu"]
    detach := fun x => x ++ ["detach"]
    numpy := fun x => x ++ ["numpy"] }

/-- Trace-valued encoder callables. -/
def exUnit : EncoderUnit (List String) :=
  { encode := fun x => x ++ ["encode"]
    preprocess := some (fun x => x ++ ["preprocess"])
    collate := some (fun x => x ++ ["collate"]) }

/-- An encoder bundle supporting the `"text"` and `"image"` modalities. -/
def exEnc : Encoder (List String) :=
  { strRep := "clip", units := [("text", exUnit), ("image", exUnit)] }

/-- A registry holding `exEnc` under the name `"clip"`. -/
def exReg : String → Option (Encoder (List String)) :=
  fun s => if s == "clip" then some exEnc else none

/-- A dataframe with one scalar column `"txt"` of one row. -/
def exDF : DataFrame (List String) :=
  ⟨[("txt", ⟨ColKind.scalar, [[]]⟩)]⟩

/-- A dataframe whose `"img"` column is an image column. -/
def exImgDF : DataFrame (List String) :=
  ⟨[("img", ⟨ColKind.image, [[]]⟩)]⟩

/-- A dataframe whose `"txt"` column is neither image nor scalar. -/
def exOtherDF : DataFrame (List String) :=
  ⟨[("txt", ⟨ColKind.other, [[]]⟩)]⟩

/-- The standard example's `encoder` argument: the registry name. -/
def exArg : EncoderArg (List String) := .name "clip"

/-- A custom-`Encoder`-object `encoder` argument. -/
def exArgC : EncoderArg (List String) := .custom exEnc

/-- The output column the standard example call produces: the trace shows
the actual stage order. -/
def exOutCol : Column (List String) :=
  ⟨ColKind.other,
    [["preprocess", "collate", "to(cpu)", "encode", "cpu", "detach",
      "numpy"]]⟩

/-- The dataframe the standard example call returns. -/
def exOutDF : DataFrame (List String) := exDF.setCol "clip(txt)" exOutCol

/-- The recorded external map call of the standard example, no mmap. -/
def exCall : MapCall := mkMapCall none 4 128

/-- The recorded external map call with `mmap_dir = "d"`. -/
def exCallMM : MapCall := mkMapCall (some "d") 4 128

end DominoModel

namespace DominoModel

/-! ### Lemmas about column access and update -/

theorem find?_map_replace {V : Type} (n : String) (c : Column V)
    (l : List (String × Column V)) (h : l.any (fun p => p.1 == n) = true) :
    (l.map (fun p => if p.1 == n then (n, c) else p)).find?
      (fun p => p.1 == n) = some (n, c) := by
  induction l with
  | nil => simp at h
  | cons a as ih =>
    by_cases ha : (a.1 == n) = true
    · rw [List.map_cons, if_pos ha,
        List.find?_cons_of_pos (p := fun q : String × Column V => q.1 == n)]
      exact beq_self_eq_true n
    · rw [List.map_cons, if_neg ha,
        List.find?_cons_of_neg (p := fun q : String × Column V => q.1 == n) _ ha]
      apply ih
      simp only [List.any_cons, Bool.not_eq_true] at h ha
      rw [ha, Bool.false_or] at h
      exact h

theorem find?_map_replace_ne {V : Type} (n m : String) (c : Column V)
    (hne : m ≠ n) (l : List (String × Column V)) :
    (l.map (fun p => if p.1 == n then (n, c) else p)).find?
      (fun p => p.1 == m) = l.find? (fun p => p.1 == m) := by
  induction l with
  | nil => rfl
  | cons a as ih =>
    by_cases ha : (a.1 == n) = true
    · have han : a.1 = n := beq_iff_eq.mp ha
      have ham : ¬(a.1 == m) = true := by
        rw [beq_iff_eq, han]
        exact fun hnm => hne hnm.symm
      have hnm : ¬((n, c).1 == m) = true := by
        rw [beq_iff_eq]
        exact fun hnm => hne hnm.symm
      rw [List.map_cons, if_pos ha,
        List.find?_cons_of_neg (p := fun q : String × Column V => q.1 == m) _ hnm,
        List.find?_cons_of_neg (p := fun q : String × Column V => q.1 == m) _ ham]
      exact ih
    · rw [List.map_cons, if_neg ha]
      by_cases ham : (a.1 == m) = true
      · rw [List.find?_cons_of_pos (p := fun q : String × Column V => q.1 == m) _ ham,
          List.find?_cons_of_pos (p := fun q : String × Column V => q.1 == m) _ ham]
      · rw [List.find?_cons_of_neg (p := fun q : String × Column V => q.1 == m) _ ham,
          List.find?_cons_of_neg (p := fun q : String × Column V => q.1 == m) _ ham]
        exact ih

theorem getCol_setCol_self {V : Type} (df : DataFrame V) (n : String)
    (c : Column V) : (df.setCol n c).getCol n = some c := by
  unfold DataFrame.setCol DataFrame.getCol
  by_cases h : df.cols.any (fun p => p.1 == n) = true
  · rw [if_pos h]
    simp only []
    rw [find?_map_replace n c df.cols h]
    rfl
  · rw [if_neg h]
    simp only []
    rw [List.find?_append]
    have hnone : df.cols.find? (fun p => p.1 == n) = none := by
      rw [List.find?_eq_none]
      intro x hx hpx
      exact h (List.any_eq_true.mpr ⟨x, hx, hpx⟩)
    rw [hnone]
    rw [List.find?_cons_of_pos (p := fun q : String × Column V => q.1 == n) _ (beq_self_eq_true n)]
    rfl

theorem getCol_setCol_ne {V : Type} (df : DataFrame V) (n m : String)
    (c : Column V) (hne : m ≠ n) :
    (df.setCol n c).getCol m = df.getCol m := by
  unfold DataFrame.setCol DataFrame.getCol
  by_cases h : df.cols.any (fun p => p.1 == n) = true
  · rw [if_pos h]
    simp only []
    rw [find?_map_replace_ne n m c hne df.cols]
  · rw [if_neg h]
    simp only []
    rw [List.find?_append]
    have hnm : ¬((n, c).1 == m) = true := by
      rw [beq_iff_eq]
      exact fun hx => hne hx.symm
    rw [List.find?_cons_of_neg (p := fun q : String × Column V => q.1 == m) _ hnm]
    cases hf : df.cols.find? (fun p => p.1 == m) with
    | none => rfl
    | some p => rfl

end DominoModel

namespace DominoModel

/-! ### Characterization of successful and failing runs -/

/-- A successful `_embed` run found the input column, attached the mapped
output column, and invoked the external map with the recorded
configuration. -/
theorem embedInner_ok_spec {V : Type} (T : TorchOps V) (cuda : Bool)
    (data : DataFrame V) (ic oc : String) (encode : V → V)
    (preprocess collate : Option (V → V)) (dev : Option String)
    (mm : Option String) (nw bs : Nat) (df' : DataFrame V) (call : MapCall)
    (h : embedInner T cuda data ic oc encode preprocess collate dev mm nw bs
      = (df', .ok call)) :
    ∃ col : Column V,
      data.getCol ic = some col ∧
      df' = data.setCol oc
        ⟨.other, map_rows T (resolve_device cuda dev) encode preprocess
          collate col.data⟩ ∧
      call = mkMapCall mm nw bs := by
  unfold embedInner at h
  cases hcol : data.getCol ic with
  | none =>
    rw [hcol] at h
    simp only [Prod.mk.injEq] at h
    exact absurd h.2 (by intro hx; cases hx)
  | some col =>
    rw [hcol] at h
    simp only [Prod.mk.injEq] at h
    refine ⟨col, rfl, ?_, ?_⟩
    · rw [← h.1]
    · cases h.2 with
      | refl => rfl

end DominoModel

namespace DominoModel

/-- A successful `embed` run resolved a modality, an encoder bundle and its
callables for that modality, found the input column, and attached the fully
composed per-row pipeline's output under the effective output column name. -/
theorem embed_ok_spec {V : Type} (T : TorchOps V)
    (reg : String → Option (Encoder V)) (cuda : Bool) (data : DataFrame V)
    (ic : String) (a : EncoderArg V) (modality : Option String)
    (oc : Option String) (dev : Option String) (mm : Option String)
    (nw bs : Nat) (df' : DataFrame V) (call : MapCall)
    (h : embed T reg cuda data ic a modality oc dev mm nw bs
      = (df', .ok call)) :
    ∃ (m : String) (enc : Encoder V) (u : EncoderUnit V) (col : Column V),
      effectiveModality data ic modality = .ok m ∧
      registryGet reg a = some enc ∧
      enc.getModality m = some u ∧
      data.getCol ic = some col ∧
      df' = data.setCol (effectiveOutCol a ic oc)
        ⟨.other, map_rows T (resolve_device cuda dev) u.encode u.preprocess
          u.collate col.data⟩ ∧
      call = mkMapCall mm nw bs := by
  unfold embed at h
  cases hm : effectiveModality data ic modality with
  | error e =>
    rw [hm] at h
    simp only [Prod.mk.injEq] at h
    exact absurd h.2 (by intro hx; cases hx)
  | ok m =>
    rw [hm] at h
    simp only [] at h
    cases hr : registryGet reg a with
    | none =>
      rw [hr] at h
      simp only [Prod.mk.injEq] at h
      exact absurd h.2 (by intro hx; cases hx)
    | some enc =>
      rw [hr] at h
      simp only [] at h
      cases hu : enc.getModality m with
      | none =>
        rw [hu] at h
        simp only [Prod.mk.injEq] at h
        exact absurd h.2 (by intro hx; cases hx)
      | some u =>
        rw [hu] at h
        simp only [] at h
        obtain ⟨col, hcol, hdf, hcall⟩ :=
          embedInner_ok_spec T cuda data ic (effectiveOutCol a ic oc)
            u.encode u.preprocess u.collate dev mm nw bs df' call h
        exact ⟨m, enc, u, col, rfl, rfl, hu, hcol, hdf, hcall⟩

/-- When `embed` raises, the dataframe is left untouched: every raise
happens before the assignment `data[out_col] = ...`. -/
theorem embed_error_fst {V : Type} (T : TorchOps V)
    (reg : String → Option (Encoder V)) (cuda : Bool) (data : DataFrame V)
    (ic : String) (a : EncoderArg V) (modality : Option String)
    (oc : Option String) (dev : Option String) (mm : Option String)
    (nw bs : Nat) (e : EmbedError)
    (h : (embed T reg cuda data ic a modality oc dev mm nw bs).2 = .error e) :
    (embed T reg cuda data ic a modality oc dev mm nw bs).1 = data := by
  unfold embed
  cases hm : effectiveModality data ic modality with
  | error e' => rfl
  | ok m =>
    simp only []
    cases hr : registryGet reg a with
    | none => rfl
    | some enc =>
      simp only []
      cases hu : enc.getModality m with
      | none => rfl
      | some u =>
        simp only []
        unfold embedInner
        cases hcol : data.getCol ic with
        | none => rfl
        | some col =>
          exfalso
          unfold embed at h
          rw [hm] at h
          simp only [] at h
          rw [hr] at h
          simp only [] at h
          rw [hu] at h
          simp only [] at h
          unfold embedInner at h
          rw [hcol] at h
          simp only [] at h
          cases h

end DominoModel

namespace DominoModel

/-- The external map driver produces one output row per input row. -/
theorem map_rows_length {V : Type} (T : TorchOps V) (dev : String)
    (encode : V → V) (preprocess collate : Option (V → V)) (xs : List V) :
    (map_rows T dev encode preprocess collate xs).length = xs.length := by
  unfold map_rows defer_rows
  cases preprocess with
  | none => simp
  | some p => simp

/-- Fusion of the staged external machinery into one per-row composition:
preprocess, collate, move to device, encode, detach to host. -/
theorem map_rows_eq_map {V : Type} (T : TorchOps V) (dev : String)
    (encode : V → V) (preprocess collate : Option (V → V)) (xs : List V) :
    map_rows T dev encode preprocess collate xs
      = xs.map (fun x => detach_to_host T (encode (prepare_input T dev
          (collate_row collate (preprocess_row preprocess x))))) := by
  unfold map_rows defer_rows map_row
  cases preprocess with
  | none => rfl
  | some p =>
    rw [List.map_map]
    rfl

/-- Equation for a successful `_embed` run, for rewriting. -/
theorem embedInner_eq {V : Type} (T : TorchOps V) (cuda : Bool)
    (data : DataFrame V) (ic oc : String) (encode : V → V)
    (preprocess collate : Option (V → V)) (dev : Option String)
    (mm : Option String) (nw bs : Nat) (col : Column V)
    (hcol : data.getCol ic = some col) :
    embedInner T cuda data ic oc encode preprocess collate dev mm nw bs
      = (data.setCol oc
          ⟨.other, map_rows T (resolve_device cuda dev) encode preprocess
            collate col.data⟩,
         .ok (mkMapCall mm nw bs)) := by
  unfold embedInner
  rw [hcol]

end DominoModel

namespace DominoModel

/-- C1: for every call to `embed` that returns normally, the output column
stored at the effective `out_col` has the same number of rows as the input
column `data[input_col]`. -/
theorem embed_rowcount {V : Type} (T : TorchOps V)
    (reg : String → Option (Encoder V)) (cuda : Bool) (data : DataFrame V)
    (ic : String) (a : EncoderArg V) (modality : Option String)
    (oc : Option String) (dev : Option String) (mm : Option String)
    (nw bs : Nat) (df' : DataFrame V) (call : MapCall)
    (h : embed T reg cuda data ic a modality oc dev mm nw bs
      = (df', .ok call)) :
    ∃ (cin cout : Column V),
      data.getCol ic = some cin ∧
      df'.getCol (effectiveOutCol a ic oc) = some cout ∧
      cout.data.length = cin.data.length := by
  obtain ⟨m, enc, u, col, hm, hr, hu, hcol, hdf, hcall⟩ :=
    embed_ok_spec T reg cuda data ic a modality oc dev mm nw bs df' call h
  subst hdf
  refine ⟨col, _, hcol, getCol_setCol_self data (effectiveOutCol a ic oc) _,
    ?_⟩
  exact map_rows_length T (resolve_device cuda dev) u.encode u.preprocess
    u.collate col.data

/-- C2: for every call to `embed` with `out_col=None` that returns normally,
the embeddings are stored in the column named by the string formatting of
the `encoder` argument followed by the input column name in parentheses. -/
theorem embed_default_out_col {V : Type} (T : TorchOps V)
    (reg : String → Option (Encoder V)) (cuda : Bool) (data : DataFrame V)
    (ic : String) (a : EncoderArg V) (modality : Option String)
    (dev : Option String) (mm : Option String) (nw bs : Nat)
    (df' : DataFrame V) (call : MapCall)
    (h : embed T reg cuda data ic a modality none dev mm nw bs
      = (df', .ok call)) :
    ∃ c : Column V,
      df' = data.setCol (EncoderArg.str a ++ "(" ++ ic ++ ")") c ∧
      df'.getCol (EncoderArg.str a ++ "(" ++ ic ++ ")") = some c := by
  obtain ⟨m, enc, u, col, hm, hr, hu, hcol, hdf, hcall⟩ :=
    embed_ok_spec T reg cuda data ic a modality none dev mm nw bs df' call h
  subst hdf
  exact ⟨_, rfl, getCol_setCol_self data _ _⟩

/-- C7: for every call to `embed`, the external map operation is invoked
with `mmap` enabled iff `mmap_dir` is not `None`, and in that case with
the path `mmap_dir` joined with `"emb_mmap.npy"`; with `mmap_dir = None` no
memory-map path is passed. -/
theorem embed_mmap_config {V : Type} (T : TorchOps V)
    (reg : String → Option (Encoder V)) (cuda : Bool) (data : DataFrame V)
    (ic : String) (a : EncoderArg V) (modality : Option String)
    (oc : Option String) (dev : Option String) (mm : Option String)
    (nw bs : Nat) (df' : DataFrame V) (call : MapCall)
    (h : embed T reg cuda data ic a modality oc dev mm nw bs
      = (df', .ok call)) :
    call.mmap = mm.isSome ∧
    call.mmap_path = Option.map (fun d => joinPath d "emb_mmap.npy") mm := by
  obtain ⟨m, enc, u, col, hm, hr, hu, hcol, hdf, hcall⟩ :=
    embed_ok_spec T reg cuda data ic a modality oc dev mm nw bs df' call h
  subst hcall
  constructor
  · rfl
  · cases mm with
    | none => rfl
    | some d => rfl

/-- C8: for every call to `embed` that returns normally, the returned
dataframe is the input dataframe with the embeddings attached as a column
named by the effective `out_col`, and every other column of `data` is
unchanged. -/
theorem embed_attaches_column {V : Type} (T : TorchOps V)
    (reg : String → Option (Encoder V)) (cuda : Bool) (data : DataFrame V)
    (ic : String) (a : EncoderArg V) (modality : Option String)
    (oc : Option String) (dev : Option String) (mm : Option String)
    (nw bs : Nat) (df' : DataFrame V) (call : MapCall)
    (h : embed T reg cuda data ic a modality oc dev mm nw bs
      = (df', .ok call)) :
    ∃ c : Column V,
      df' = data.setCol (effectiveOutCol a ic oc) c ∧
      df'.getCol (effectiveOutCol a ic oc) = some c ∧
      ∀ name : String, name ≠ effectiveOutCol a ic oc →
        df'.getCol name = data.getCol name := by
  obtain ⟨m, enc, u, col, hm, hr, hu, hcol, hdf, hcall⟩ :=
    embed_ok_spec T reg cuda data ic a modality oc dev mm nw bs df' call h
  subst hdf
  exact ⟨_, rfl, getCol_setCol_self data _ _,
    fun name hname => getCol_setCol_ne data _ name _ hname⟩

/-- C9: for every call to `embed` with `out_col=None` that returns normally,
the default output column name is built from the `encoder` argument as
passed, before the registry lookup resolves it: a string argument
contributes the string itself, a custom `Encoder` object contributes its
own string representation — never a registry name, the registry being
arbitrary here. -/
theorem embed_default_name_prelookup {V : Type} (T : TorchOps V)
    (reg : String → Option (Encoder V)) (cuda : Bool) (data : DataFrame V)
    (ic : String) (a : EncoderArg V) (modality : Option String)
    (dev : Option String) (mm : Option String) (nw bs : Nat)
    (df' : DataFrame V) (call : MapCall)
    (h : embed T reg cuda data ic a modality none dev mm nw bs
      = (df', .ok call)) :
    (∃ c : Column V,
      df' = data.setCol (EncoderArg.str a ++ "(" ++ ic ++ ")") c) ∧
    (∀ s : String, a = EncoderArg.name s → EncoderArg.str a = s) ∧
    (∀ e : Encoder V, a = EncoderArg.custom e →
      EncoderArg.str a = e.strRep) := by
  obtain ⟨m, enc, u, col, hm, hr, hu, hcol, hdf, hcall⟩ :=
    embed_ok_spec T reg cuda data ic a modality none dev mm nw bs df' call h
  subst hdf
  refine ⟨⟨_, rfl⟩, ?_, ?_⟩
  · intro s hs
    subst hs
    rfl
  · intro e he
    subst he
    rfl

end DominoModel

namespace DominoModel

/-- C4: for every call to `embed` where the inferred or declared modality is
not supported by the resolved encoder bundle, `embed` raises the
unrecognized-modality `ValueError` and leaves the dataframe unchanged. -/
theorem embed_unsupported_modality {V : Type} (T : TorchOps V)
    (reg : String → Option (Encoder V)) (cuda : Bool) (data : DataFrame V)
    (ic : String) (a : EncoderArg V) (modality : Option String)
    (oc : Option String) (dev : Option String) (mm : Option String)
    (nw bs : Nat) (m : String) (enc : Encoder V)
    (hm : effectiveModality data ic modality = .ok m)
    (hr : registryGet reg a = some enc)
    (hu : enc.getModality m = none) :
    embed T reg cuda data ic a modality oc dev mm nw bs
      = (data, .error .unsupportedModality) := by
  unfold embed
  rw [hm]
  simp only []
  rw [hr]
  simp only []
  rw [hu]

/-- C5: for every call to `embed` with `modality=None` whose input column is
neither an image column nor a scalar column, `embed` raises the
`ValueError` of `infer_modality` and leaves the dataframe unchanged. -/
theorem embed_cannot_infer {V : Type} (T : TorchOps V)
    (reg : String → Option (Encoder V)) (cuda : Bool) (data : DataFrame V)
    (ic : String) (a : EncoderArg V) (oc : Option String)
    (dev : Option String) (mm : Option String) (nw bs : Nat)
    (col : Column V) (hcol : data.getCol ic = some col)
    (hkind : col.kind = .other) :
    embed T reg cuda data ic a none oc dev mm nw bs
      = (data, .error (.cannotInferModality .other)) := by
  obtain ⟨k, d⟩ := col
  simp only [] at hkind
  subst hkind
  unfold embed effectiveModality infer_modality
  rw [hcol]

/-- C10: a call to `embed` that raises one of the two validation
`ValueError`s (unsupported column type during inference, or unrecognized
modality) leaves the input dataframe unchanged: no output column is added,
because both raises happen before the assignment that attaches the
output. -/
theorem embed_no_mutation_on_validation_error {V : Type} (T : TorchOps V)
    (reg : String → Option (Encoder V)) (cuda : Bool) (data : DataFrame V)
    (ic : String) (a : EncoderArg V) (modality : Option String)
    (oc : Option String) (dev : Option String) (mm : Option String)
    (nw bs : Nat) (e : EmbedError)
    (h : (embed T reg cuda data ic a modality oc dev mm nw bs).2 = .error e)
    (_he : (∃ k, e = .cannotInferModality k) ∨ e = .unsupportedModality) :
    (embed T reg cuda data ic a modality oc dev mm nw bs).1 = data := by
  exact embed_error_fst T reg cuda data ic a modality oc dev mm nw bs e h

end DominoModel

namespace DominoModel

/-- C3: with `modality=None` the modality is inferred from the input
column's type — an image column behaves exactly as `modality="image"` and a
scalar column exactly as `modality="text"` — while with an explicit
modality no inference takes place: the input column's type plays no role,
only its rows do (same rows give the same outcome and, on success, the same
output column). -/
theorem embed_modality_inference {V : Type} (T : TorchOps V)
    (reg : String → Option (Encoder V)) (cuda : Bool) (a : EncoderArg V)
    (oc : Option String) (dev : Option String) (mm : Option String)
    (nw bs : Nat) :
    (∀ (data : DataFrame V) (ic : String) (col : Column V),
      data.getCol ic = some col → col.kind = .image →
      embed T reg cuda data ic a none oc dev mm nw bs
        = embed T reg cuda data ic a (some "image") oc dev mm nw bs) ∧
    (∀ (data : DataFrame V) (ic : String) (col : Column V),
      data.getCol ic = some col → col.kind = .scalar →
      embed T reg cuda data ic a none oc dev mm nw bs
        = embed T reg cuda data ic a (some "text") oc dev mm nw bs) ∧
    (∀ (data₁ data₂ : DataFrame V) (ic : String) (col₁ col₂ : Column V)
      (m : String),
      data₁.getCol ic = some col₁ → data₂.getCol ic = some col₂ →
      col₁.data = col₂.data →
      (embed T reg cuda data₁ ic a (some m) oc dev mm nw bs).2
        = (embed T reg cuda data₂ ic a (some m) oc dev mm nw bs).2 ∧
      (∀ call : MapCall,
        (embed T reg cuda data₁ ic a (some m) oc dev mm nw bs).2 = .ok call →
        (embed T reg cuda data₁ ic a (some m) oc dev mm nw bs).1.getCol
            (effectiveOutCol a ic oc)
          = (embed T reg cuda data₂ ic a (some m) oc dev mm nw bs).1.getCol
            (effectiveOutCol a ic oc))) := by
  refine ⟨?_, ?_, ?_⟩
  · intro data ic col hcol hkind
    obtain ⟨k, d⟩ := col
    simp only [] at hkind
    subst hkind
    unfold embed effectiveModality infer_modality
    rw [hcol]
  · intro data ic col hcol hkind
    obtain ⟨k, d⟩ := col
    simp only [] at hkind
    subst hkind
    unfold embed effectiveModality infer_modality
    rw [hcol]
  · intro data₁ data₂ ic col₁ col₂ m h₁ h₂ hd
    unfold embed effectiveModality
    simp only []
    cases hr : registryGet reg a with
    | none =>
      refine ⟨rfl, ?_⟩
      intro call hcall
      cases hcall
    | some enc =>
      simp only []
      cases hu : enc.getModality m with
      | none =>
        refine ⟨rfl, ?_⟩
        intro call hcall
        cases hcall
      | some u =>
        simp only []
        rw [embedInner_eq T cuda data₁ ic (effectiveOutCol a ic oc)
            u.encode u.preprocess u.collate dev mm nw bs col₁ h₁,
          embedInner_eq T cuda data₂ ic (effectiveOutCol a ic oc)
            u.encode u.preprocess u.collate dev mm nw bs col₂ h₂,
          hd]
        refine ⟨rfl, ?_⟩
        intro call hcall
        rw [getCol_setCol_self, getCol_setCol_self]

end DominoModel

namespace DominoModel

/-- C6 (amended): for every call to `embed` that returns normally, each
value of the output column is obtained by applying the encoder bundle's
callbacks in the order: preprocess, then collate, then move-to-device
(`_prepare_input`), then encode, then detach-to-host
(`.cpu().detach().numpy()`), composed into the callback given to the
external map operation. -/
theorem embed_pipeline_order {V : Type} (T : TorchOps V)
    (reg : String → Option (Encoder V)) (cuda : Bool) (data : DataFrame V)
    (ic : String) (a : EncoderArg V) (modality : Option String)
    (oc : Option String) (dev : Option String) (mm : Option String)
    (nw bs : Nat) (df' : DataFrame V) (call : MapCall)
    (h : embed T reg cuda data ic a modality oc dev mm nw bs
      = (df', .ok call)) :
    ∃ (m : String) (enc : Encoder V) (u : EncoderUnit V) (col : Column V),
      effectiveModality data ic modality = .ok m ∧
      registryGet reg a = some enc ∧
      enc.getModality m = some u ∧
      data.getCol ic = some col ∧
      df'.getCol (effectiveOutCol a ic oc)
        = some ⟨.other, col.data.map (fun x =>
            detach_to_host T (u.encode (prepare_input T
              (resolve_device cuda dev)
              (collate_row u.collate (preprocess_row u.preprocess x)))))⟩ := by
  obtain ⟨m, enc, u, col, hm, hr, hu, hcol, hdf, hcall⟩ :=
    embed_ok_spec T reg cuda data ic a modality oc dev mm nw bs df' call h
  subst hdf
  refine ⟨m, enc, u, col, hm, hr, hu, hcol, ?_⟩
  rw [getCol_setCol_self, map_rows_eq_map]

/-- C6, as the spec states it, is false: at this concrete call the single
output value is not the spec's composition (which encodes before moving to
the device) applied to the input row. -/
theorem embed_spec_order_counterexample :
    (embed exT exReg false exDF "txt" (.name "clip") none none (some "cpu")
        none 4 128).1.getCol "clip(txt)"
      ≠ some ⟨ColKind.other,
          ([[]] : List (List String)).map (spec_pipeline exT "cpu" exUnit)⟩ := by
  decide

end DominoModel

namespace DominoModel

theorem embed_rowcount_witness :
    embed exT exReg false exDF "txt" exArg none none (some "cpu")
        none 4 128 = (exOutDF, .ok exCall) ∧
    ∃ (cin cout : Column (List String)),
      exDF.getCol "txt" = some cin ∧
      exOutDF.getCol (effectiveOutCol exArg "txt" none)
        = some cout ∧
      cout.data.length = cin.data.length :=
  ⟨by rfl,
   embed_rowcount exT exReg false exDF "txt" exArg none none
     (some "cpu") none 4 128 exOutDF exCall (by rfl)⟩

theorem embed_default_out_col_witness :
    embed exT exReg false exDF "txt" exArg none none (some "cpu")
        none 4 128 = (exOutDF, .ok exCall) ∧
    ∃ c : Column (List String),
      exOutDF = exDF.setCol
        (EncoderArg.str exArg ++ "(" ++ "txt" ++ ")") c ∧
      exOutDF.getCol (EncoderArg.str exArg ++ "(" ++ "txt" ++ ")")
        = some c :=
  ⟨by rfl,
   embed_default_out_col exT exReg false exDF "txt" exArg none
     (some "cpu") none 4 128 exOutDF exCall (by rfl)⟩

theorem embed_mmap_config_witness :
    embed exT exReg false exDF "txt" exArg none none (some "cpu")
        (some "d") 4 128 = (exOutDF, .ok exCallMM) ∧
    (exCallMM.mmap = (some "d" : Option String).isSome ∧
     exCallMM.mmap_path
       = Option.map (fun d => joinPath d "emb_mmap.npy") (some "d")) :=
  ⟨by rfl,
   embed_mmap_config exT exReg false exDF "txt" exArg none none
     (some "cpu") (some "d") 4 128 exOutDF exCallMM (by rfl)⟩

theorem embed_attaches_column_witness :
    embed exT exReg false exDF "txt" exArg none none (some "cpu")
        none 4 128 = (exOutDF, .ok exCall) ∧
    ∃ c : Column (List String),
      exOutDF = exDF.setCol (effectiveOutCol exArg "txt" none) c ∧
      exOutDF.getCol (effectiveOutCol exArg "txt" none) = some c ∧
      ∀ name : String, name ≠ effectiveOutCol exArg "txt" none →
        exOutDF.getCol name = exDF.getCol name :=
  ⟨by rfl,
   embed_attaches_column exT exReg false exDF "txt" exArg none none
     (some "cpu") none 4 128 exOutDF exCall (by rfl)⟩

theorem embed_default_name_prelookup_witness :
    embed exT exReg false exDF "txt" exArgC none none (some "cpu")
        none 4 128 = (exOutDF, .ok exCall) ∧
    ((∃ c : Column (List String),
        exOutDF = exDF.setCol
          (EncoderArg.str exArgC ++ "(" ++ "txt" ++ ")") c) ∧
     (∀ s : String, exArgC = EncoderArg.name s →
        EncoderArg.str exArgC = s) ∧
     (∀ e : Encoder (List String),
        exArgC = EncoderArg.custom e →
        EncoderArg.str (exArgC) = e.strRep)) :=
  ⟨by rfl,
   embed_default_name_prelookup exT exReg false exDF "txt" exArgC
     none (some "cpu") none 4 128 exOutDF exCall (by rfl)⟩

theorem embed_pipeline_order_witness :
    embed exT exReg false exDF "txt" exArg none none (some "cpu")
        none 4 128 = (exOutDF, .ok exCall) ∧
    ∃ (m : String) (enc : Encoder (List String))
      (u : EncoderUnit (List String)) (col : Column (List String)),
      effectiveModality exDF "txt" none = .ok m ∧
      registryGet exReg exArg = some enc ∧
      enc.getModality m = some u ∧
      exDF.getCol "txt" = some col ∧
      exOutDF.getCol (effectiveOutCol exArg "txt" none)
        = some ⟨ColKind.other, col.data.map (fun x =>
            detach_to_host exT (u.encode (prepare_input exT
              (resolve_device false (some "cpu"))
              (collate_row u.collate (preprocess_row u.preprocess x)))))⟩ :=
  ⟨by rfl,
   embed_pipeline_order exT exReg false exDF "txt" exArg none none
     (some "cpu") none 4 128 exOutDF exCall (by rfl)⟩

theorem embed_unsupported_modality_witness :
    effectiveModality exDF "txt" (some "audio") = .ok "audio" ∧
    registryGet exReg exArg = some exEnc ∧
    exEnc.getModality "audio" = none ∧
    embed exT exReg false exDF "txt" exArg (some "audio") none
        (some "cpu") none 4 128 = (exDF, .error .unsupportedModality) :=
  ⟨by rfl, by rfl, by rfl,
   embed_unsupported_modality exT exReg false exDF "txt" exArg
     (some "audio") none (some "cpu") none 4 128 "audio" exEnc (by rfl)
     (by rfl) (by rfl)⟩

theorem embed_cannot_infer_witness :
    exOtherDF.getCol "txt" = some ⟨ColKind.other, [[]]⟩ ∧
    (⟨ColKind.other, [[]]⟩ : Column (List String)).kind = ColKind.other ∧
    embed exT exReg false exOtherDF "txt" exArg none none
        (some "cpu") none 4 128
      = (exOtherDF, .error (.cannotInferModality .other)) :=
  ⟨by rfl, by rfl,
   embed_cannot_infer exT exReg false exOtherDF "txt" exArg none
     (some "cpu") none 4 128 ⟨ColKind.other, [[]]⟩ (by rfl) (by rfl)⟩

theorem embed_no_mutation_on_validation_error_witness :
    (embed exT exReg false exOtherDF "txt" exArg none none
        (some "cpu") none 4 128).2
      = .error (.cannotInferModality .other) ∧
    (embed exT exReg false exOtherDF "txt" exArg none none
        (some "cpu") none 4 128).1 = exOtherDF :=
  ⟨by rfl,
   embed_no_mutation_on_validation_error exT exReg false exOtherDF "txt"
     exArg none none (some "cpu") none 4 128
     (.cannotInferModality .other) (by rfl)
     (Or.inl ⟨ColKind.other, rfl⟩)⟩

theorem embed_modality_inference_witness :
    (embed exT exReg false exDF "txt" exArg none none (some "cpu")
        none 4 128
      = embed exT exReg false exDF "txt" exArg (some "text") none
          (some "cpu") none 4 128) ∧
    (embed exT exReg false exImgDF "img" exArg none none
        (some "cpu") none 4 128
      = embed exT exReg false exImgDF "img" exArg (some "image")
          none (some "cpu") none 4 128) ∧
    ((embed exT exReg false exDF "txt" exArg (some "text") none
        (some "cpu") none 4 128).2
      = (embed exT exReg false exOtherDF "txt" exArg (some "text")
          none (some "cpu") none 4 128).2) :=
  ⟨(embed_modality_inference exT exReg false exArg none
      (some "cpu") none 4 128).2.1 exDF "txt" ⟨ColKind.scalar, [[]]⟩
      (by rfl) (by rfl),
   (embed_modality_inference exT exReg false exArg none
      (some "cpu") none 4 128).1 exImgDF "img" ⟨ColKind.image, [[]]⟩
      (by rfl) (by rfl),
   ((embed_modality_inference exT exReg false exArg none
      (some "cpu") none 4 128).2.2 exDF exOtherDF "txt"
      ⟨ColKind.scalar, [[]]⟩ ⟨ColKind.other, [[]]⟩ "text" (by rfl) (by rfl)
      (by rfl)).1⟩

end DominoModel
